import Mathlib

/-!
Shallow embedding of the Simple LMK memory-reclaim engine
(drivers/staging/android/simple_lmk.c) and the max-boost coalescing logic of
the CPU input-boost driver (drivers/cpufreq/cpu_input_boost.c).

Processes are modelled as a list of task records carrying exactly the fields
the reclaim engine reads or writes; jiffies are modelled as natural numbers
(so time_after_eq(a, b) becomes b <= a and time_after(a, b) becomes b < a);
the platform timeout constants LMK_OOM_TIMEOUT, LMK_KSWAPD_TIMEOUT and the
configured MIN_FREE_PAGES target come from headers outside this tree, so they
are passed as parameters.  Stateful entry points are modelled as explicit
state-passing functions on an engine record; the mutual-exclusion behaviour
of the two triggers is modelled separately as a step relation on a small
transition system.
-/

namespace SimpleLmk

/-- A live process as observed by `scan_and_kill`: one record per task, with
the fields the scan reads (`same_thread_group(tsk, current)`, `PF_KTHREAD`,
whether `find_lock_task_mm` succeeds, `lmk_sigkill_sent`, `TIF_MEMDIE`,
`signal->oom_score_adj`, `get_mm_rss`) and the outcome of
`do_send_sig_info` (`sig_fails` = the call returns nonzero), plus the two
fields the scan writes (`lmk_sigkill_sent`, the `SCHED_FIFO` elevation). -/
structure Task where
  pid : Nat
  same_thread_group : Bool
  kthread : Bool
  has_mm : Bool
  lmk_sigkill_sent : Bool
  memdie : Bool
  oom_score_adj : Int
  rss : Nat
  sig_fails : Bool
  sched_fifo : Bool
deriving DecidableEq, Repr

/-- Result of one `scan_and_kill` call: the updated task list, the pages
freed, and the (input snapshots of the) tasks that were successfully
signalled, in scan order. -/
structure ScanResult where
  tasks : List Task
  pages_freed : Nat
  killed : List Task
deriving DecidableEq, Repr

/-- The task record after a successful kill: `lmk_sigkill_sent` set and the
scheduling class elevated (`sched_setscheduler_nocheck(victim, SCHED_FIFO, ...)`). -/
def markKilled (t : Task) : Task :=
  { t with lmk_sigkill_sent := true, sched_fifo := true }

/-- The body of `scan_and_kill`'s `for_each_process` loop, with the running
`pages_freed` accumulator made explicit.  Each branch mirrors one skip test
of the source, in source order. -/
def scan_loop (min_adj max_adj : Int) (pages_needed : Nat) (pages_freed : Nat) :
    List Task → ScanResult
  | [] => ⟨[], pages_freed, []⟩
  | tsk :: rest =>
    -- Don't commit suicide or kill kthreads
    if tsk.same_thread_group || tsk.kthread then
      let r := scan_loop min_adj max_adj pages_needed pages_freed rest
      ⟨tsk :: r.tasks, r.pages_freed, r.killed⟩
    -- find_lock_task_mm returned NULL
    else if !tsk.has_mm then
      let r := scan_loop min_adj max_adj pages_needed pages_freed rest
      ⟨tsk :: r.tasks, r.pages_freed, r.killed⟩
    -- Don't kill tasks that have been killed or lack memory
    else if tsk.lmk_sigkill_sent || tsk.memdie then
      let r := scan_loop min_adj max_adj pages_needed pages_freed rest
      ⟨tsk :: r.tasks, r.pages_freed, r.killed⟩
    -- oom_score_adj < min_adj || oom_score_adj > max_adj
    else if tsk.oom_score_adj < min_adj ∨ max_adj < tsk.oom_score_adj then
      let r := scan_loop min_adj max_adj pages_needed pages_freed rest
      ⟨tsk :: r.tasks, r.pages_freed, r.killed⟩
    -- !tasksize
    else if tsk.rss = 0 then
      let r := scan_loop min_adj max_adj pages_needed pages_freed rest
      ⟨tsk :: r.tasks, r.pages_freed, r.killed⟩
    -- do_send_sig_info failed: skip without counting
    else if tsk.sig_fails then
      let r := scan_loop min_adj max_adj pages_needed pages_freed rest
      ⟨tsk :: r.tasks, r.pages_freed, r.killed⟩
    else
      -- signal delivered: mark, elevate, account, maybe break
      let pages_freed' := pages_freed + tsk.rss
      if pages_needed ≤ pages_freed' then
        ⟨markKilled tsk :: rest, pages_freed', [tsk]⟩
      else
        let r := scan_loop min_adj max_adj pages_needed pages_freed' rest
        ⟨markKilled tsk :: r.tasks, r.pages_freed, tsk :: r.killed⟩

/-- `scan_and_kill(min_adj, max_adj, pages_needed)`: the loop starting with
`pages_freed = 0`. -/
def scan_and_kill (min_adj max_adj : Int) (pages_needed : Nat) (tasks : List Task) :
    ScanResult :=
  scan_loop min_adj max_adj pages_needed 0 tasks

/-- Whether a task passes every skip test of `scan_and_kill` (the conjunction
of the source's six checks, in source order). -/
def killable (min_adj max_adj : Int) (tsk : Task) : Bool :=
  !(tsk.same_thread_group || tsk.kthread) && tsk.has_mm &&
  !(tsk.lmk_sigkill_sent || tsk.memdie) &&
  !(decide (tsk.oom_score_adj < min_adj) || decide (max_adj < tsk.oom_score_adj)) &&
  !(decide (tsk.rss = 0)) && !tsk.sig_fails

/-- One-step unfolding of `scan_loop` that folds the six skip tests into the
single predicate `killable`. -/
theorem scan_loop_cons (min_adj max_adj : Int) (pages_needed pages_freed : Nat)
    (tsk : Task) (rest : List Task) :
    scan_loop min_adj max_adj pages_needed pages_freed (tsk :: rest) =
      if killable min_adj max_adj tsk then
        if pages_needed ≤ pages_freed + tsk.rss then
          ⟨markKilled tsk :: rest, pages_freed + tsk.rss, [tsk]⟩
        else
          let r := scan_loop min_adj max_adj pages_needed (pages_freed + tsk.rss) rest
          ⟨markKilled tsk :: r.tasks, r.pages_freed, tsk :: r.killed⟩
      else
        let r := scan_loop min_adj max_adj pages_needed pages_freed rest
        ⟨tsk :: r.tasks, r.pages_freed, r.killed⟩ := by
  by_cases h1 : (tsk.same_thread_group || tsk.kthread) = true <;>
  by_cases h2 : tsk.has_mm = true <;>
  by_cases h3 : (tsk.lmk_sigkill_sent || tsk.memdie) = true <;>
  by_cases h4 : tsk.oom_score_adj < min_adj <;>
  by_cases h5 : max_adj < tsk.oom_score_adj <;>
  by_cases h6 : tsk.rss = 0 <;>
  by_cases h7 : tsk.sig_fails = true <;>
  simp [scan_loop, killable, h1, h2, h3, h4, h5, h6, h7]

/-- The boundary table `adj_prio`, pulled from the Android framework:
descending oom_score_adj boundaries from CACHED_APP_MAX_ADJ down to
FOREGROUND_APP_ADJ. -/
def adj_prio : List Int := [906, 900, 800, 700, 600, 500, 400, 300, 200, 100, 0]

/-- PAGE_SIZE on this arm64 platform (4 KiB pages). -/
def PAGE_SIZE : Nat := 4096

/-- SZ_1M. -/
def SZ_1M : Nat := 1048576

/-- Duration to boost CPU and DDR bus to the max per memory reclaim event. -/
def BOOST_DURATION_MS : Nat := 250

/-- Externally observable actions of a reclaim pass, in program order:
the two boost kicks issued by `do_lmk_reclaim` and each `scan_and_kill`
call with its bounds, the `pages_freed` accumulated before the call and the
deficit argument actually passed. -/
inductive Event where
  | boostCpuMax (ms : Nat)
  | boostDevfreqMax (ms : Nat)
  | scanTier (min_adj max_adj : Int) (freed_before deficit : Nat)
deriving DecidableEq, Repr

/-- Result of `do_lmk_reclaim`: final task list, total pages freed, the MiB
value returned to the caller, and the event trace. -/
structure ReclaimResult where
  tasks : List Task
  pages_freed : Nat
  mib_freed : Nat
  events : List Event
deriving DecidableEq, Repr

/-- The tier loop of `do_lmk_reclaim`:
`for (i = 1; i < ARRAY_SIZE(adj_prio); i++) { pages_freed += scan_and_kill(adj_prio[i], adj_prio[i-1], pages_needed - pages_freed); if (pages_freed >= pages_needed) break; }`,
with the `pages_freed` accumulator and the evolving task list explicit, and
each `scan_and_kill` call recorded as a `scanTier` event.  The first argument
counts the remaining iterations (`ARRAY_SIZE(adj_prio) - i` at the call
site), so the bounded for-loop is structural recursion. -/
def reclaim_loop (pages_needed : Nat) :
    Nat → Nat → Nat → List Task → List Task × Nat × List Event
  | 0, _, pages_freed, tasks => (tasks, pages_freed, [])
  | fuel + 1, i, pages_freed, tasks =>
    if i < adj_prio.length then
      let lo := adj_prio.getD i 0
      let hi := adj_prio.getD (i - 1) 0
      let r := scan_and_kill lo hi (pages_needed - pages_freed) tasks
      let ev := Event.scanTier lo hi pages_freed (pages_needed - pages_freed)
      let pages_freed' := pages_freed + r.pages_freed
      if pages_needed ≤ pages_freed' then
        (r.tasks, pages_freed', [ev])
      else
        let rest := reclaim_loop pages_needed fuel (i + 1) pages_freed' r.tasks
        (rest.1, rest.2.1, ev :: rest.2.2)
    else (tasks, pages_freed, [])

/-- `do_lmk_reclaim(pages_needed)`: kick the CPU and DDR-bus boosts for
`BOOST_DURATION_MS`, run the tier loop from index 1, and convert the freed
page count to MiB for the caller
(`return pages_freed * PAGE_SIZE / SZ_1M`). -/
def do_lmk_reclaim (pages_needed : Nat) (tasks : List Task) : ReclaimResult :=
  let r := reclaim_loop pages_needed (adj_prio.length - 1) 1 0 tasks
  { tasks := r.1
    pages_freed := r.2.1
    mib_freed := r.2.1 * PAGE_SIZE / SZ_1M
    events := Event.boostCpuMax BOOST_DURATION_MS ::
      Event.boostDevfreqMax BOOST_DURATION_MS :: r.2.2 }

/-- The engine's global state: the readiness flag `simple_lmk_ready`, whether
`reclaim_lock` is currently held, `last_reclaim_jiffies`, whether the delayed
`reclaim_work` is queued, whether `simple_lmk_wq` has been allocated, and the
process list the scans operate on. -/
structure Engine where
  ready : Bool
  lock_held : Bool
  last_reclaim_jiffies : Nat
  work_queued : Bool
  wq_allocated : Bool
  tasks : List Task
deriving DecidableEq, Repr

/-- `simple_lmk_force_reclaim` (the urgent, non-blocking trigger), as a
function of the current jiffies value `now`, with the platform constants
`LMK_OOM_TIMEOUT` (`oom_timeout`) and `MIN_FREE_PAGES` (`min_free_pages`)
passed as parameters (they come from headers outside this tree).  Returns
the updated engine state and the `mib_freed` value the function would log.
`mutex_trylock` failing is `lock_held = true`; on the successful-trylock
paths the lock is released before returning, so `lock_held` is left false. -/
def simple_lmk_force_reclaim (oom_timeout min_free_pages now : Nat)
    (e : Engine) : Engine × Nat :=
  if !e.ready then (e, 0)
  else if e.lock_held then (e, 0)
  else if e.last_reclaim_jiffies + oom_timeout ≤ now then
    let r := do_lmk_reclaim min_free_pages e.tasks
    ({ e with tasks := r.tasks, last_reclaim_jiffies := now }, r.mib_freed)
  else (e, 0)

/-- `simple_lmk_reclaim_work` (the periodic trigger's body), modelled at the
point where its blocking `mutex_lock(&reclaim_lock)` has succeeded; the
trailing `queue_delayed_work` re-arm is `work_queued := true`.
`kswapd_timeout` is the platform constant `LMK_KSWAPD_TIMEOUT`. -/
def simple_lmk_reclaim_work (kswapd_timeout min_free_pages now : Nat)
    (e : Engine) : Engine × Nat :=
  if e.last_reclaim_jiffies + kswapd_timeout ≤ now then
    let r := do_lmk_reclaim min_free_pages e.tasks
    ({ e with
        tasks := r.tasks
        last_reclaim_jiffies := now
        work_queued := true }, r.mib_freed)
  else ({ e with work_queued := true }, 0)

/-- `simple_lmk_start_reclaim`: queue the delayed reclaim work, gated on the
readiness flag. -/
def simple_lmk_start_reclaim (e : Engine) : Engine :=
  if !e.ready then e else { e with work_queued := true }

/-- `simple_lmk_stop_reclaim`: cancel the delayed reclaim work, gated on the
readiness flag. -/
def simple_lmk_stop_reclaim (e : Engine) : Engine :=
  if !e.ready then e else { e with work_queued := false }

/-- `simple_lmk_init_set`, the write handler of the `lowmemorykiller.minfree`
parameter: on the first write allocate the workqueue and set the readiness
flag; on every later write return immediately. -/
def simple_lmk_init_set (e : Engine) : Engine :=
  if e.ready then e
  else { e with wq_allocated := true, ready := true }

/-! ### The max-boost coalescing logic of cpu_input_boost.c -/

namespace Boost

/-- HZ of the platform's tick (jiffies per second). -/
def HZ : Nat := 100

/-- `msecs_to_jiffies`, rounding up to whole ticks. -/
def msecs_to_jiffies (ms : Nat) : Nat := (ms + 1000 / HZ - 1) / (1000 / HZ)

/-- `time_after(a, b)` on the Nat model of jiffies. -/
def time_after (a b : Nat) : Bool := b < a

/-- The fields of `struct boost_drv` touched by `__cpu_input_boost_kick_max`:
the stored expiry `max_boost_expires`, the duration `max_boost_dur`, and
whether the `max_boost` work has been queued to the worker. -/
structure BoostDrv where
  max_boost_expires : Nat
  max_boost_dur : Nat
  max_boost_queued : Bool
deriving DecidableEq, Repr

/-- `__cpu_input_boost_kick_max(b, duration_ms)` at jiffies value `now`:
compute `new_expires = jiffies + msecs_to_jiffies(duration_ms)`; skip the
boost entirely if there is a longer boost in effect
(`time_after(curr_expires, new_expires)`); otherwise commit the new expiry
(the `atomic64_cmpxchg` retry loop collapses to a plain store in this
sequential model), record the duration and queue the max-boost work. -/
def __cpu_input_boost_kick_max (b : BoostDrv) (now duration_ms : Nat) : BoostDrv :=
  let new_expires := now + msecs_to_jiffies duration_ms
  if time_after b.max_boost_expires new_expires then b
  else
    { max_boost_expires := new_expires
      max_boost_dur := duration_ms
      max_boost_queued := true }

end Boost

/-! ### Mutual exclusion of the two reclaim triggers

A small transition system over the states of the two trigger threads: the
periodic worker (`simple_lmk_reclaim_work`) takes `reclaim_lock` with a
blocking `mutex_lock`, the urgent caller (`simple_lmk_force_reclaim`) with a
non-blocking `mutex_trylock`.  The critical section (`crit`) is the region
between acquiring and releasing `reclaim_lock`, which contains the only call
sites of `do_lmk_reclaim`. -/

namespace Mutex

/-- Control location of the periodic worker: not running, blocked in
`mutex_lock`, or inside the critical section. -/
inductive PLoc where
  | idle
  | wait
  | crit
deriving DecidableEq, Repr

/-- Control location of the urgent caller: outside, or inside the critical
section (a failed `mutex_trylock` returns straight to `idle`). -/
inductive ULoc where
  | idle
  | crit
deriving DecidableEq, Repr

/-- Global state: whether `reclaim_lock` is held, and where each trigger
thread is. -/
structure Sys where
  lock : Bool
  per : PLoc
  urg : ULoc
deriving DecidableEq, Repr

/-- Interleaving semantics of the two triggers.  The periodic worker may
start waiting at any time, enters the critical section only when the lock is
free (taking it), and releases on exit.  The urgent caller's `mutex_trylock`
succeeds only when the lock is free; when the lock is held the call returns
immediately (no state change, so no transition is needed). -/
inductive Step : Sys → Sys → Prop where
  | pStart (l : Bool) (u : ULoc) :
      Step ⟨l, .idle, u⟩ ⟨l, .wait, u⟩
  | pAcquire (u : ULoc) :
      Step ⟨false, .wait, u⟩ ⟨true, .crit, u⟩
  | pRelease (u : ULoc) :
      Step ⟨true, .crit, u⟩ ⟨false, .idle, u⟩
  | uTryAcquire (p : PLoc) :
      Step ⟨false, p, .idle⟩ ⟨true, p, .crit⟩
  | uRelease (p : PLoc) :
      Step ⟨true, p, .crit⟩ ⟨false, p, .idle⟩

/-- Initial state: lock free, both threads outside. -/
def init : Sys := ⟨false, .idle, .idle⟩

/-- Reachability under any interleaving. -/
def Reachable (s : Sys) : Prop := Relation.ReflTransGen Step init s

/-- Inductive invariant: anyone in the critical section holds the lock, and
the two threads are never both inside. -/
def Inv (s : Sys) : Prop :=
  (s.per = .crit → s.lock = true) ∧ (s.urg = .crit → s.lock = true) ∧
    ¬(s.per = .crit ∧ s.urg = .crit)

theorem inv_init : Inv init := by
  simp [Inv, init]

theorem inv_step {s s' : Sys} (h : Step s s') (hs : Inv s) : Inv s' := by
  cases h <;> simp_all [Inv]

theorem inv_reachable {s : Sys} (h : Reachable s) : Inv s := by
  induction h with
  | refl => exact inv_init
  | tail _ hstep ih => exact inv_step hstep ih

end Mutex

/-! ### Spec-side definitions

`tiers_from` renders the spec's description of the Priority Tier Table
(tier i = `(boundary[i], boundary[i-1])` for i = 1..N-1, index 1 upward) and
the orchestrator recursion, for comparison with the embedded loop. -/

/-- The tier list from index `i` upward (second argument), per the spec's
boundary-table construction; the first argument counts the remaining
entries. -/
def tiers_from : Nat → Nat → List (Int × Int)
  | 0, _ => []
  | fuel + 1, i =>
    if i < adj_prio.length then
      (adj_prio.getD i 0, adj_prio.getD (i - 1) 0) :: tiers_from fuel (i + 1)
    else []

/-- The spec's Reclaim Orchestrator: walk the tier list least-important
first, call Scanner/Terminator with the remaining deficit
(`pages_needed - pages_freed_so_far`), and stop as soon as the cumulative
freed pages meet or exceed `pages_needed` or the tiers are exhausted. -/
def orchestrator_spec (pages_needed : Nat) :
    List (Int × Int) → List Task → Nat → List Task × Nat
  | [], tasks, freed => (tasks, freed)
  | (lo, hi) :: rest, tasks, freed =>
    let r := scan_and_kill lo hi (pages_needed - freed) tasks
    if pages_needed ≤ freed + r.pages_freed then (r.tasks, freed + r.pages_freed)
    else orchestrator_spec pages_needed rest r.tasks (freed + r.pages_freed)

/-- Tier `i` of the boundary table: `(adj_prio[i], adj_prio[i-1])`. -/
def tierAt (i : Nat) : Int × Int := (adj_prio.getD i 0, adj_prio.getD (i - 1) 0)

/-- The eligibility test of `scan_and_kill` applied to tier `i`:
`min_adj ≤ s ≤ max_adj` (the negation of the skip test
`oom_score_adj < min_adj || oom_score_adj > max_adj`). -/
def tierAccepts (i : Nat) (s : Int) : Prop :=
  (tierAt i).1 ≤ s ∧ s ≤ (tierAt i).2

instance (i : Nat) (s : Int) : Decidable (tierAccepts i s) := by
  unfold tierAccepts; infer_instance

/-! ### Properties of the scan loop -/

theorem markKilled_pid (t : Task) : (markKilled t).pid = t.pid := rfl

theorem markKilled_sent (t : Task) : (markKilled t).lmk_sigkill_sent = true := rfl

/-- What `killable` says about the task's fields. -/
theorem killable_spec {m M : Int} {t : Task} (h : killable m M t = true) :
    t.same_thread_group = false ∧ t.kthread = false ∧ t.has_mm = true ∧
      t.lmk_sigkill_sent = false ∧ t.memdie = false ∧
      m ≤ t.oom_score_adj ∧ t.oom_score_adj ≤ M ∧ t.rss ≠ 0 ∧
      t.sig_fails = false := by
  simp only [killable, Bool.and_eq_true, Bool.not_eq_true', Bool.or_eq_false_iff,
    decide_eq_false_iff_not, not_lt] at h
  tauto

/-- The pages freed by the scan are the starting accumulator plus exactly the
sum of the resident footprints of the tasks it killed. -/
theorem scan_loop_freed (m M : Int) (n : Nat) (ts : List Task) : ∀ f,
    (scan_loop m M n f ts).pages_freed =
      f + ((scan_loop m M n f ts).killed.map Task.rss).sum := by
  induction ts with
  | nil => intro f; simp [scan_loop]
  | cons t rest ih =>
    intro f
    rw [scan_loop_cons]
    by_cases hk : killable m M t = true
    · by_cases hb : n ≤ f + t.rss
      · simp [hk, hb]
      · simp only [hk, hb, if_true, if_false]
        simp only [List.map_cons, List.sum_cons, ih (f + t.rss)]
        omega
    · simp [hk, ih f]

/-- Every killed task comes from the input list and passed every skip test:
in particular its kill flag and `TIF_MEMDIE` were clear, its signal was
delivered, and its footprint was nonzero. -/
theorem scan_loop_killed_mem (m M : Int) (n : Nat) (ts : List Task) : ∀ f t,
    t ∈ (scan_loop m M n f ts).killed →
      t ∈ ts ∧ t.lmk_sigkill_sent = false ∧ t.memdie = false ∧
        t.sig_fails = false ∧ t.rss ≠ 0 := by
  induction ts with
  | nil => intro f t h; simp [scan_loop] at h
  | cons hd rest ih =>
    intro f t h
    rw [scan_loop_cons] at h
    by_cases hk : killable m M hd = true
    · obtain ⟨-, -, -, h4, h5, -, -, h8, h9⟩ := killable_spec hk
      by_cases hb : n ≤ f + hd.rss
      · simp only [hk, hb, if_true] at h
        simp only [List.mem_singleton] at h
        subst h
        exact ⟨List.mem_cons_self _ _, h4, h5, h9, h8⟩
      · simp only [hk, hb, if_true, if_false, List.mem_cons] at h
        rcases h with h | h
        · subst h; exact ⟨List.mem_cons_self _ _, h4, h5, h9, h8⟩
        · obtain ⟨hm, hrest⟩ := ih (f + hd.rss) t h
          exact ⟨List.mem_cons_of_mem hd hm, hrest⟩
    · simp only [hk, if_false] at h
      obtain ⟨hm, hrest⟩ := ih f t h
      exact ⟨List.mem_cons_of_mem hd hm, hrest⟩

/-- The scan rewrites tasks in place: the pid sequence of the output list is
the pid sequence of the input list. -/
theorem scan_loop_pids (m M : Int) (n : Nat) (ts : List Task) : ∀ f,
    (scan_loop m M n f ts).tasks.map Task.pid = ts.map Task.pid := by
  induction ts with
  | nil => intro f; simp [scan_loop]
  | cons hd rest ih =>
    intro f
    rw [scan_loop_cons]
    by_cases hk : killable m M hd = true
    · by_cases hb : n ≤ f + hd.rss
      · simp [hk, hb, markKilled_pid]
      · simp [hk, hb, markKilled_pid, ih (f + hd.rss)]
    · simp [hk, ih f]

/-- Every task the scan killed is marked in the output list: some output
task with the same pid has the kill flag set. -/
theorem scan_loop_killed_marked (m M : Int) (n : Nat) (ts : List Task) : ∀ f t,
    t ∈ (scan_loop m M n f ts).killed →
      ∃ t', t' ∈ (scan_loop m M n f ts).tasks ∧ t'.pid = t.pid ∧
        t'.lmk_sigkill_sent = true := by
  induction ts with
  | nil => intro f t h; simp [scan_loop] at h
  | cons hd rest ih =>
    intro f t h
    rw [scan_loop_cons] at h ⊢
    by_cases hk : killable m M hd = true
    · by_cases hb : n ≤ f + hd.rss
      · simp only [hk, hb, if_true] at h ⊢
        simp only [List.mem_singleton] at h
        subst h
        exact ⟨markKilled t, List.mem_cons_self _ _, markKilled_pid t,
          markKilled_sent t⟩
      · simp only [hk, hb, if_true, if_false, List.mem_cons] at h ⊢
        rcases h with h | h
        · subst h
          exact ⟨markKilled t, Or.inl rfl, markKilled_pid t, markKilled_sent t⟩
        · obtain ⟨t', ht', hpid, hsent⟩ := ih (f + hd.rss) t h
          exact ⟨t', Or.inr ht', hpid, hsent⟩
    · simp only [hk, Bool.false_eq_true, if_false] at h
      simp only [hk, Bool.false_eq_true, if_false, List.mem_cons]
      obtain ⟨t', ht', hpid, hsent⟩ := ih f t h
      exact ⟨t', Or.inr ht', hpid, hsent⟩

/-- When pids are distinct, an output task whose kill flag is clear was not
one of the scan's victims. -/
theorem scan_loop_unsent_not_killed (m M : Int) (n : Nat) (ts : List Task)
    (hnd : (ts.map Task.pid).Nodup) : ∀ f t',
    t' ∈ (scan_loop m M n f ts).tasks → t'.lmk_sigkill_sent = false →
      t'.pid ∉ (scan_loop m M n f ts).killed.map Task.pid := by
  induction ts with
  | nil => intro f t' h; simp [scan_loop] at h
  | cons hd rest ih =>
    simp only [List.map_cons, List.nodup_cons, List.mem_map] at hnd
    obtain ⟨hhd, hrestnd⟩ := hnd
    intro f t' ht' hsent
    rw [scan_loop_cons] at ht' ⊢
    by_cases hk : killable m M hd = true
    · by_cases hb : n ≤ f + hd.rss
      · simp only [hk, hb, if_true] at ht' ⊢
        simp only [List.mem_cons] at ht'
        rcases ht' with h | h
        · subst h; simp [markKilled_sent] at hsent
        · simp only [List.map_cons, List.map_nil, List.mem_singleton]
          intro hpid
          exact hhd ⟨t', h, hpid⟩
      · simp only [hk, hb, if_true, if_false] at ht' ⊢
        simp only [List.mem_cons] at ht'
        rcases ht' with h | h
        · subst h; simp [markKilled_sent] at hsent
        · simp only [List.map_cons, List.mem_cons]
          rintro (hpid | hpid)
          · have hmem : t'.pid ∈ (scan_loop m M n (f + hd.rss) rest).tasks.map Task.pid :=
              List.mem_map_of_mem Task.pid h
            rw [scan_loop_pids m M n rest (f + hd.rss)] at hmem
            obtain ⟨u, hu, hupid⟩ := List.mem_map.mp hmem
            exact hhd ⟨u, hu, by omega⟩
          · exact ih hrestnd (f + hd.rss) t' h hsent hpid
    · simp only [hk, Bool.false_eq_true, if_false] at ht' ⊢
      simp only [List.mem_cons] at ht'
      rcases ht' with h | h
      · subst h
        intro hpid
        obtain ⟨u, hu, hupid⟩ := List.mem_map.mp hpid
        obtain ⟨humem, -⟩ := scan_loop_killed_mem m M n rest f u hu
        exact hhd ⟨u, humem, hupid⟩
      · exact ih hrestnd f t' h hsent

/-! ### Properties of the tier loop -/

theorem adj_prio_length : adj_prio.length = 11 := rfl

/-- The embedded tier loop computes exactly the spec's orchestrator recursion
over the tier list built from the same boundary index. -/
theorem reclaim_loop_eq_spec (n : Nat) : ∀ fuel i f ts,
    ((reclaim_loop n fuel i f ts).1, (reclaim_loop n fuel i f ts).2.1) =
      orchestrator_spec n (tiers_from fuel i) ts f := by
  intro fuel
  induction fuel with
  | zero =>
    intro i f ts
    simp [reclaim_loop, tiers_from, orchestrator_spec]
  | succ fuel ih =>
    intro i f ts
    rw [reclaim_loop, tiers_from]
    by_cases hi : i < adj_prio.length
    · simp only [hi, if_true, orchestrator_spec]
      split
      · rfl
      · exact ih (i + 1) _ _
    · simp [hi, orchestrator_spec]

/-- Every `scan_and_kill` invocation in the tier loop happens with fewer
pages freed so far than requested, and its deficit argument is the exact
difference. -/
theorem reclaim_loop_deficit (n : Nat) : ∀ fuel i f ts, f < n →
    ∀ lo hi fb d,
      Event.scanTier lo hi fb d ∈ (reclaim_loop n fuel i f ts).2.2 →
        fb < n ∧ fb + d = n := by
  intro fuel
  induction fuel with
  | zero =>
    intro i f ts _ elo ehi fb d hmem
    simp [reclaim_loop] at hmem
  | succ fuel ih =>
    intro i f ts hf elo ehi fb d hmem
    rw [reclaim_loop] at hmem
    by_cases hilen : i < adj_prio.length
    · simp only [hilen, if_true] at hmem
      split at hmem
      · simp only [List.mem_singleton, Event.scanTier.injEq] at hmem
        obtain ⟨-, -, h3, h4⟩ := hmem
        omega
      · next hb =>
        simp only [List.mem_cons, Event.scanTier.injEq] at hmem
        rcases hmem with ⟨-, -, h3, h4⟩ | hmem
        · omega
        · exact ih (i + 1) _ _ (by omega) elo ehi fb d hmem
    · simp [hilen] at hmem

/-- When every task has zero resident footprint the scan is a no-op. -/
theorem scan_loop_rss_zero (m M : Int) (n : Nat) (ts : List Task)
    (hz : ∀ t ∈ ts, t.rss = 0) : ∀ f, scan_loop m M n f ts = ⟨ts, f, []⟩ := by
  induction ts with
  | nil => intro f; simp [scan_loop]
  | cons hd rest ih =>
    intro f
    have hzhd : hd.rss = 0 := hz hd (List.mem_cons_self _ _)
    have hk : ¬killable m M hd = true := by
      simp [killable, hzhd]
    rw [scan_loop_cons]
    simp [hk, ih (fun t ht => hz t (List.mem_cons_of_mem hd ht)) f]

/-- When every task has zero resident footprint the tier loop frees nothing
and leaves the task list untouched. -/
theorem reclaim_loop_rss_zero (n : Nat) : ∀ fuel i ts,
    (∀ t ∈ ts, t.rss = 0) →
      (reclaim_loop n fuel i 0 ts).1 = ts ∧
        (reclaim_loop n fuel i 0 ts).2.1 = 0 := by
  intro fuel
  induction fuel with
  | zero =>
    intro i ts _
    simp [reclaim_loop]
  | succ fuel ih =>
    intro i ts hz
    rw [reclaim_loop]
    by_cases hi : i < adj_prio.length
    · have hscan : scan_and_kill (adj_prio.getD i 0) (adj_prio.getD (i - 1) 0)
          (n - 0) ts = ⟨ts, 0, []⟩ :=
        scan_loop_rss_zero _ _ _ ts hz 0
      simp only [hi, if_true, hscan]
      split
      · simp
      · simpa using ih (i + 1) ts hz
    · simp [hi]

/-! ### Concrete tier-table facts -/

/-- Closed form of tier `i`'s bounds for the usable indices 1..10. -/
theorem tierAt_eq (i : Nat) (h1 : 1 ≤ i) (h2 : i ≤ 10) :
    tierAt i = (1000 - 100 * (i : Int),
      if i = 1 then 906 else 1100 - 100 * (i : Int)) := by
  interval_cases i <;> decide

/-- A demo task for concrete instantiations: not a kthread, has an mm, no
kill outstanding, signal delivery succeeds. -/
def demoTask (p : Nat) (adj : Int) (r : Nat) : Task :=
  ⟨p, false, false, true, false, false, adj, r, false, false⟩

/-! ### The claims -/

/-- C1: at most one reclaim pass executes at any instant.  In the
transition system `Mutex.Step` modelling every interleaving of the periodic
trigger (`simple_lmk_reclaim_work`, blocking `mutex_lock`) and the urgent
trigger (`simple_lmk_force_reclaim`, `mutex_trylock`), no reachable state
has both threads inside the `reclaim_lock` critical section that contains
the `do_lmk_reclaim` call, so two executions of `do_lmk_reclaim` never
overlap. -/
theorem reclaim_passes_mutually_exclusive (s : Mutex.Sys)
    (h : Mutex.Reachable s) :
    ¬(s.per = Mutex.PLoc.crit ∧ s.urg = Mutex.ULoc.crit) :=
  (Mutex.inv_reachable h).2.2

/-- Witness for C1: the theorem applied to the state the urgent trigger
reaches by a successful trylock from the initial state. -/
theorem reclaim_passes_mutually_exclusive_witness :
    ¬((⟨true, Mutex.PLoc.idle, Mutex.ULoc.crit⟩ : Mutex.Sys).per =
        Mutex.PLoc.crit ∧
      (⟨true, Mutex.PLoc.idle, Mutex.ULoc.crit⟩ : Mutex.Sys).urg =
        Mutex.ULoc.crit) :=
  reclaim_passes_mutually_exclusive _
    (Relation.ReflTransGen.single (Mutex.Step.uTryAcquire Mutex.PLoc.idle))

/-- C2: for every `pages_needed`, `do_lmk_reclaim` iterates the tiers from
boundary-table index 1 upward, calling `scan_and_kill` for tier `i` with
bounds `(adj_prio[i], adj_prio[i-1])` and the remaining deficit
`pages_needed - pages_freed_so_far`, stopping as soon as the cumulative
freed pages meet or exceed `pages_needed` or the tiers are exhausted: the
embedded loop computes exactly the spec's orchestrator recursion over the
tier list built from boundary index 1 upward. -/
theorem do_lmk_reclaim_matches_orchestrator_spec (pages_needed : Nat)
    (tasks : List Task) :
    ((do_lmk_reclaim pages_needed tasks).tasks,
      (do_lmk_reclaim pages_needed tasks).pages_freed) =
      orchestrator_spec pages_needed (tiers_from (adj_prio.length - 1) 1)
        tasks 0 :=
  reclaim_loop_eq_spec pages_needed (adj_prio.length - 1) 1 0 tasks

/-- C4: the freed total returned by `scan_and_kill` never exceeds the sum of
the resident footprints of the processes it actually signalled successfully,
and a process whose termination signal failed to deliver is never among
them (so it contributes nothing to the total). -/
theorem scan_and_kill_freed_le_signaled (min_adj max_adj : Int)
    (pages_needed : Nat) (tasks : List Task) :
    (scan_and_kill min_adj max_adj pages_needed tasks).pages_freed ≤
      ((scan_and_kill min_adj max_adj pages_needed tasks).killed.map
        Task.rss).sum ∧
    ∀ t ∈ (scan_and_kill min_adj max_adj pages_needed tasks).killed,
      t.sig_fails = false := by
  constructor
  · have h := scan_loop_freed min_adj max_adj pages_needed tasks 0
    unfold scan_and_kill
    omega
  · intro t ht
    exact (scan_loop_killed_mem min_adj max_adj pages_needed tasks 0 t ht).2.2.2.1

/-- Witness for C4: the bound evaluated on a concrete scan that kills one of
two tasks. -/
theorem scan_and_kill_freed_le_signaled_witness :
    (scan_and_kill 900 906 60 [demoTask 1 905 30, demoTask 2 650 50]).pages_freed ≤
      ((scan_and_kill 900 906 60 [demoTask 1 905 30, demoTask 2 650 50]).killed.map
        Task.rss).sum ∧
    ∀ t ∈ (scan_and_kill 900 906 60 [demoTask 1 905 30, demoTask 2 650 50]).killed,
      t.sig_fails = false :=
  scan_and_kill_freed_le_signaled 900 906 60 [demoTask 1 905 30, demoTask 2 650 50]

/-- C10: for every `pages_needed > 0`, every `scan_and_kill` invocation of
the tier loop happens with strictly fewer pages freed so far than
`pages_needed`, so the unsigned deficit argument
`pages_needed - pages_freed` is the exact difference and strictly positive:
the subtraction never wraps. -/
theorem reclaim_deficit_no_wrap (pages_needed : Nat) (tasks : List Task)
    (hpos : 0 < pages_needed) : ∀ lo hi fb d,
    Event.scanTier lo hi fb d ∈ (do_lmk_reclaim pages_needed tasks).events →
      fb < pages_needed ∧ d = pages_needed - fb ∧ 0 < d := by
  intro lo hi fb d hmem
  have hloop : Event.scanTier lo hi fb d ∈
      (reclaim_loop pages_needed (adj_prio.length - 1) 1 0 tasks).2.2 := by
    simpa [do_lmk_reclaim] using hmem
  have h := reclaim_loop_deficit pages_needed (adj_prio.length - 1) 1 0 tasks
    hpos lo hi fb d hloop
  omega

/-- Witness for C10: the first tier scan of a 5-page request over an empty
process list receives the full positive deficit. -/
theorem reclaim_deficit_no_wrap_witness :
    0 < 5 ∧ ((0 : Nat) < 5 ∧ (5 : Nat) = 5 - 0 ∧ 0 < 5) :=
  ⟨by decide, reclaim_deficit_no_wrap 5 [] (by decide) 900 906 0 5 (by decide)⟩

/-- C3 counterexample: the eligibility test `min_adj <= score <= max_adj` is
inclusive at both ends while adjacent tiers share a boundary value, so the
boundary score 900 is accepted by both tier 1 `(900, 906)` and tier 2
`(800, 900)`: there is not exactly one accepting tier for every score in the
covered range. -/
theorem tier_partition_exactly_one_cex :
    tierAccepts 1 900 ∧ tierAccepts 2 900 ∧ (1 : Nat) ≠ 2 ∧
      ¬∃! i : Nat, 1 ≤ i ∧ i ≤ 10 ∧ tierAccepts i 900 := by
  refine ⟨by decide, by decide, by decide, ?_⟩
  rintro ⟨i, -, huniq⟩
  have h1 := huniq 1 (by decide)
  have h2 := huniq 2 (by decide)
  omega

/-- C3 amended: the tiers cover the whole importance range 0..906 with no
gaps, tier `i`'s upper bound equals tier `i-1`'s lower bound, and two
distinct tiers accept the same score only when that score is one of the
shared boundary values 100..900 (every non-boundary score in range is
accepted by exactly one tier). -/
theorem tiers_cover_with_shared_boundaries :
    (∀ s : Int, 0 ≤ s → s ≤ 906 →
      ∃ i : Nat, 1 ≤ i ∧ i ≤ 10 ∧ tierAccepts i s) ∧
    (∀ i : Nat, 2 ≤ i → i ≤ 10 → (tierAt i).2 = (tierAt (i - 1)).1) ∧
    (∀ (s : Int) (i j : Nat), 1 ≤ i → i ≤ 10 → 1 ≤ j → j ≤ 10 →
      tierAccepts i s → tierAccepts j s → i ≠ j →
      s ∈ ([100, 200, 300, 400, 500, 600, 700, 800, 900] : List Int)) := by
  refine ⟨?_, ?_, ?_⟩
  · intro s h0 h906
    rcases (by omega :
        (900 : Int) ≤ s ∨ 800 ≤ s ∧ s < 900 ∨ 700 ≤ s ∧ s < 800 ∨
        600 ≤ s ∧ s < 700 ∨ 500 ≤ s ∧ s < 600 ∨ 400 ≤ s ∧ s < 500 ∨
        300 ≤ s ∧ s < 400 ∨ 200 ≤ s ∧ s < 300 ∨ 100 ≤ s ∧ s < 200 ∨
        s < 100) with h | h | h | h | h | h | h | h | h | h
    · exact ⟨1, by omega, by omega,
        show (900 : Int) ≤ s ∧ s ≤ 906 from ⟨by omega, by omega⟩⟩
    · exact ⟨2, by omega, by omega,
        show (800 : Int) ≤ s ∧ s ≤ 900 from ⟨by omega, by omega⟩⟩
    · exact ⟨3, by omega, by omega,
        show (700 : Int) ≤ s ∧ s ≤ 800 from ⟨by omega, by omega⟩⟩
    · exact ⟨4, by omega, by omega,
        show (600 : Int) ≤ s ∧ s ≤ 700 from ⟨by omega, by omega⟩⟩
    · exact ⟨5, by omega, by omega,
        show (500 : Int) ≤ s ∧ s ≤ 600 from ⟨by omega, by omega⟩⟩
    · exact ⟨6, by omega, by omega,
        show (400 : Int) ≤ s ∧ s ≤ 500 from ⟨by omega, by omega⟩⟩
    · exact ⟨7, by omega, by omega,
        show (300 : Int) ≤ s ∧ s ≤ 400 from ⟨by omega, by omega⟩⟩
    · exact ⟨8, by omega, by omega,
        show (200 : Int) ≤ s ∧ s ≤ 300 from ⟨by omega, by omega⟩⟩
    · exact ⟨9, by omega, by omega,
        show (100 : Int) ≤ s ∧ s ≤ 200 from ⟨by omega, by omega⟩⟩
    · exact ⟨10, by omega, by omega,
        show (0 : Int) ≤ s ∧ s ≤ 100 from ⟨by omega, by omega⟩⟩
  · intro i h2 h10
    interval_cases i <;> decide
  · intro s i j h1i h2i h1j h2j hi hj hne
    unfold tierAccepts at hi hj
    rw [tierAt_eq i h1i h2i] at hi
    rw [tierAt_eq j h1j h2j] at hj
    simp only [List.mem_cons, List.not_mem_nil, or_false]
    by_cases e1 : i = 1 <;> by_cases e2 : j = 1 <;>
      simp only [e1, e2, if_true, if_pos, if_neg, reduceIte] at hi hj <;>
      simp at hi hj <;> omega

/-- Witness for C3 (amended): tier 4 accepts the non-boundary score 650. -/
theorem tiers_cover_with_shared_boundaries_witness :
    ∃ i : Nat, 1 ≤ i ∧ i ≤ 10 ∧ tierAccepts i 650 :=
  tiers_cover_with_shared_boundaries.1 650 (by decide) (by decide)

/-- C5: the urgent trigger never blocks: with the engine ready, (a) if
`reclaim_lock` is held the call returns immediately with nothing reclaimed
and the engine state unchanged; (b) if the lock is free but the minimum
urgent interval `LMK_OOM_TIMEOUT` has not elapsed since the last reclaim,
it releases the lock and returns with nothing reclaimed and the state
unchanged (freed = 0, no task touched); (c) otherwise it performs exactly
one `do_lmk_reclaim` pass and the lock is free on return. -/
theorem force_reclaim_nonblocking (oom_timeout min_free_pages now : Nat)
    (e : Engine) (hready : e.ready = true) :
    (e.lock_held = true →
      simple_lmk_force_reclaim oom_timeout min_free_pages now e = (e, 0)) ∧
    (e.lock_held = false → now < e.last_reclaim_jiffies + oom_timeout →
      simple_lmk_force_reclaim oom_timeout min_free_pages now e = (e, 0)) ∧
    (e.lock_held = false → e.last_reclaim_jiffies + oom_timeout ≤ now →
      simple_lmk_force_reclaim oom_timeout min_free_pages now e =
        ({ e with
            tasks := (do_lmk_reclaim min_free_pages e.tasks).tasks
            last_reclaim_jiffies := now },
          (do_lmk_reclaim min_free_pages e.tasks).mib_freed) ∧
      (simple_lmk_force_reclaim oom_timeout min_free_pages now e).1.lock_held =
        e.lock_held) := by
  unfold simple_lmk_force_reclaim
  refine ⟨?_, ?_, ?_⟩
  · intro hlock
    simp [hready, hlock]
  · intro hlock htime
    simp [hready, hlock, show ¬(e.last_reclaim_jiffies + oom_timeout ≤ now) by omega]
  · intro hlock htime
    simp [hready, hlock, htime]

/-- Witness for C5: a ready engine whose lock is free and whose urgent
interval has elapsed performs the reclaim pass. -/
theorem force_reclaim_nonblocking_witness :
    ((⟨true, true, 0, false, true, []⟩ : Engine).lock_held = true →
      simple_lmk_force_reclaim 10 5 20 ⟨true, true, 0, false, true, []⟩ =
        (⟨true, true, 0, false, true, []⟩, 0)) ∧
    ((⟨true, true, 0, false, true, []⟩ : Engine).lock_held = false →
      20 < (⟨true, true, 0, false, true, []⟩ : Engine).last_reclaim_jiffies + 10 →
      simple_lmk_force_reclaim 10 5 20 ⟨true, true, 0, false, true, []⟩ =
        (⟨true, true, 0, false, true, []⟩, 0)) ∧
    ((⟨true, true, 0, false, true, []⟩ : Engine).lock_held = false →
      (⟨true, true, 0, false, true, []⟩ : Engine).last_reclaim_jiffies + 10 ≤ 20 →
      simple_lmk_force_reclaim 10 5 20 ⟨true, true, 0, false, true, []⟩ =
        ({ (⟨true, true, 0, false, true, []⟩ : Engine) with
            tasks := (do_lmk_reclaim 5 (⟨true, true, 0, false, true, []⟩ : Engine).tasks).tasks
            last_reclaim_jiffies := 20 },
          (do_lmk_reclaim 5 (⟨true, true, 0, false, true, []⟩ : Engine).tasks).mib_freed) ∧
      (simple_lmk_force_reclaim 10 5 20 ⟨true, true, 0, false, true, []⟩).1.lock_held =
        (⟨true, true, 0, false, true, []⟩ : Engine).lock_held) :=
  force_reclaim_nonblocking 10 5 20 ⟨true, true, 0, false, true, []⟩ rfl

/-- C6: a process whose kill flag is already set, or already marked for
death (`TIF_MEMDIE`), is never signalled by any `scan_and_kill` call; every
process a scan signals has its kill flag set in the resulting task list; and
across two consecutive scans (any bounds, any targets) over a list with
distinct pids, no process is selected as a victim twice. -/
theorem no_double_kill (m1 M1 m2 M2 : Int) (n1 n2 : Nat) (tasks : List Task) :
    (∀ t ∈ (scan_and_kill m1 M1 n1 tasks).killed,
      t.lmk_sigkill_sent = false ∧ t.memdie = false) ∧
    (∀ t ∈ (scan_and_kill m1 M1 n1 tasks).killed,
      ∃ t', t' ∈ (scan_and_kill m1 M1 n1 tasks).tasks ∧ t'.pid = t.pid ∧
        t'.lmk_sigkill_sent = true) ∧
    ((tasks.map Task.pid).Nodup → ∀ p,
      p ∈ (scan_and_kill m1 M1 n1 tasks).killed.map Task.pid →
      p ∉ (scan_and_kill m2 M2 n2
        (scan_and_kill m1 M1 n1 tasks).tasks).killed.map Task.pid) := by
  refine ⟨?_, ?_, ?_⟩
  · intro t ht
    have h := scan_loop_killed_mem m1 M1 n1 tasks 0 t ht
    exact ⟨h.2.1, h.2.2.1⟩
  · intro t ht
    exact scan_loop_killed_marked m1 M1 n1 tasks 0 t ht
  · intro hnd p hp1 hp2
    obtain ⟨t2, ht2, hpid2⟩ := List.mem_map.mp hp2
    obtain ⟨ht2mem, ht2sent, -, -, -⟩ :=
      scan_loop_killed_mem m2 M2 n2 _ 0 t2 ht2
    have hnot := scan_loop_unsent_not_killed m1 M1 n1 tasks hnd 0 t2
      ht2mem ht2sent
    exact hnot (hpid2 ▸ hp1)

/-- Witness for C6 evaluated on two tasks with distinct pids: the first scan
kills pid 1, the second cannot kill it again. -/
theorem no_double_kill_witness :
    (∀ t ∈ (scan_and_kill 900 906 100 [demoTask 1 905 30, demoTask 2 650 50]).killed,
      t.lmk_sigkill_sent = false ∧ t.memdie = false) ∧
    (∀ t ∈ (scan_and_kill 900 906 100 [demoTask 1 905 30, demoTask 2 650 50]).killed,
      ∃ t', t' ∈ (scan_and_kill 900 906 100 [demoTask 1 905 30, demoTask 2 650 50]).tasks ∧
        t'.pid = t.pid ∧ t'.lmk_sigkill_sent = true) ∧
    (([demoTask 1 905 30, demoTask 2 650 50].map Task.pid).Nodup → ∀ p,
      p ∈ (scan_and_kill 900 906 100 [demoTask 1 905 30, demoTask 2 650 50]).killed.map Task.pid →
      p ∉ (scan_and_kill 0 906 100
        (scan_and_kill 900 906 100 [demoTask 1 905 30, demoTask 2 650 50]).tasks).killed.map Task.pid) :=
  no_double_kill 900 906 0 906 100 100 [demoTask 1 905 30, demoTask 2 650 50]

/-- C7: `do_lmk_reclaim` issues its two boost requests, both for the fixed
250 ms `BOOST_DURATION_MS`, as the first two actions of every pass — before
any tier is scanned and unconditionally; and when no candidate has a
positive resident footprint it frees nothing and returns 0 (a valid
outcome), with the boost requests still issued. -/
theorem do_lmk_reclaim_boost_first (pages_needed : Nat) (tasks : List Task) :
    (do_lmk_reclaim pages_needed tasks).events.take 2 =
      [Event.boostCpuMax BOOST_DURATION_MS,
        Event.boostDevfreqMax BOOST_DURATION_MS] ∧
    BOOST_DURATION_MS = 250 ∧
    ((∀ t ∈ tasks, t.rss = 0) →
      (do_lmk_reclaim pages_needed tasks).pages_freed = 0 ∧
      (do_lmk_reclaim pages_needed tasks).mib_freed = 0 ∧
      (do_lmk_reclaim pages_needed tasks).tasks = tasks ∧
      (do_lmk_reclaim pages_needed tasks).events.take 2 =
        [Event.boostCpuMax BOOST_DURATION_MS,
          Event.boostDevfreqMax BOOST_DURATION_MS]) := by
  refine ⟨rfl, rfl, ?_⟩
  intro hz
  obtain ⟨htasks, hfreed⟩ :=
    reclaim_loop_rss_zero pages_needed (adj_prio.length - 1) 1 tasks hz
  refine ⟨hfreed, ?_, htasks, rfl⟩
  show (reclaim_loop pages_needed (adj_prio.length - 1) 1 0 tasks).2.1 *
    PAGE_SIZE / SZ_1M = 0
  rw [hfreed]
  simp

/-- Witness for C7: a single candidate with zero footprint: freed = 0,
returned MiB = 0, boosts still first. -/
theorem do_lmk_reclaim_boost_first_witness :
    (do_lmk_reclaim 5 [demoTask 1 905 0]).pages_freed = 0 ∧
    (do_lmk_reclaim 5 [demoTask 1 905 0]).mib_freed = 0 ∧
    (do_lmk_reclaim 5 [demoTask 1 905 0]).tasks = [demoTask 1 905 0] ∧
    (do_lmk_reclaim 5 [demoTask 1 905 0]).events.take 2 =
      [Event.boostCpuMax BOOST_DURATION_MS,
        Event.boostDevfreqMax BOOST_DURATION_MS] :=
  (do_lmk_reclaim_boost_first 5 [demoTask 1 905 0]).2.2 (by decide)

/-- C8: max-boost coalescing is set-if-greater over the stored expiry: a
request whose computed expiry is strictly earlier than the stored expiry is
dropped with the whole state unchanged; the stored expiry never decreases;
and for two requests with computed expiries E1 < E2, if the stored expiry at
the start is at most E2 then the final stored expiry is E2 in either arrival
order. -/
theorem kick_max_set_if_greater (b : Boost.BoostDrv) (now1 d1 now2 d2 : Nat) :
    (now1 + Boost.msecs_to_jiffies d1 < b.max_boost_expires →
      Boost.__cpu_input_boost_kick_max b now1 d1 = b) ∧
    b.max_boost_expires ≤
      (Boost.__cpu_input_boost_kick_max b now1 d1).max_boost_expires ∧
    (now1 + Boost.msecs_to_jiffies d1 < now2 + Boost.msecs_to_jiffies d2 →
      b.max_boost_expires ≤ now2 + Boost.msecs_to_jiffies d2 →
      (Boost.__cpu_input_boost_kick_max
          (Boost.__cpu_input_boost_kick_max b now1 d1) now2 d2).max_boost_expires =
        now2 + Boost.msecs_to_jiffies d2 ∧
      (Boost.__cpu_input_boost_kick_max
          (Boost.__cpu_input_boost_kick_max b now2 d2) now1 d1).max_boost_expires =
        now2 + Boost.msecs_to_jiffies d2) := by
  unfold Boost.__cpu_input_boost_kick_max Boost.time_after
  refine ⟨?_, ?_, ?_⟩
  · intro h
    simp [h]
  · by_cases h : now1 + Boost.msecs_to_jiffies d1 < b.max_boost_expires
    · simp [h]
    · simp [h]
      omega
  · intro h12 hle
    constructor
    · by_cases h1 : now1 + Boost.msecs_to_jiffies d1 < b.max_boost_expires
      · simp [h1, show ¬(now2 + Boost.msecs_to_jiffies d2 < b.max_boost_expires)
          by omega]
      · simp [h1, show ¬(now2 + Boost.msecs_to_jiffies d2 <
          now1 + Boost.msecs_to_jiffies d1) by omega]
    · simp [show ¬(now2 + Boost.msecs_to_jiffies d2 < b.max_boost_expires)
        by omega, h12]

/-- Witness for C8: stored expiry 5, E1 = 10 + 10 ticks, E2 = 30 + 10 ticks:
both orders end with the stored expiry equal to E2. -/
theorem kick_max_set_if_greater_witness :
    ((10 : Nat) + Boost.msecs_to_jiffies 100 < 5 →
      Boost.__cpu_input_boost_kick_max ⟨5, 0, false⟩ 10 100 = ⟨5, 0, false⟩) ∧
    (5 : Nat) ≤
      (Boost.__cpu_input_boost_kick_max ⟨5, 0, false⟩ 10 100).max_boost_expires ∧
    ((10 : Nat) + Boost.msecs_to_jiffies 100 < 30 + Boost.msecs_to_jiffies 100 →
      (5 : Nat) ≤ 30 + Boost.msecs_to_jiffies 100 →
      (Boost.__cpu_input_boost_kick_max
          (Boost.__cpu_input_boost_kick_max ⟨5, 0, false⟩ 10 100) 30 100).max_boost_expires =
        30 + Boost.msecs_to_jiffies 100 ∧
      (Boost.__cpu_input_boost_kick_max
          (Boost.__cpu_input_boost_kick_max ⟨5, 0, false⟩ 30 100) 10 100).max_boost_expires =
        30 + Boost.msecs_to_jiffies 100) :=
  kick_max_set_if_greater ⟨5, 0, false⟩ 10 100 30 100

/-- C9: the readiness flag is write-once and never cleared: the first
configuration write makes the engine ready and allocates the workqueue,
every later write is a no-op; while the flag is unset,
`simple_lmk_force_reclaim`, `simple_lmk_start_reclaim` and
`simple_lmk_stop_reclaim` all return immediately without reclaiming or
changing any engine state; and no entry point ever changes the flag's
value (only `simple_lmk_init_set` does, from unset to set). -/
theorem ready_flag_write_once (oom_timeout kswapd_timeout min_free_pages
    now : Nat) (e : Engine) :
    (simple_lmk_init_set e).ready = true ∧
    (e.ready = true → simple_lmk_init_set e = e) ∧
    (e.ready = false →
      simple_lmk_force_reclaim oom_timeout min_free_pages now e = (e, 0) ∧
      simple_lmk_start_reclaim e = e ∧
      simple_lmk_stop_reclaim e = e) ∧
    (simple_lmk_force_reclaim oom_timeout min_free_pages now e).1.ready =
      e.ready ∧
    (simple_lmk_start_reclaim e).ready = e.ready ∧
    (simple_lmk_stop_reclaim e).ready = e.ready ∧
    (simple_lmk_reclaim_work kswapd_timeout min_free_pages now e).1.ready =
      e.ready := by
  unfold simple_lmk_init_set simple_lmk_force_reclaim
    simple_lmk_start_reclaim simple_lmk_stop_reclaim simple_lmk_reclaim_work
  refine ⟨?_, ?_, ?_, ?_, ?_, ?_, ?_⟩
  · by_cases h : e.ready = true <;> simp [h]
  · intro h; simp [h]
  · intro h
    simp [h]
  · by_cases h : e.ready = true <;>
      by_cases hl : e.lock_held = true <;>
      by_cases ht : e.last_reclaim_jiffies + oom_timeout ≤ now <;>
      simp [h, hl, ht]
  · by_cases h : e.ready = true <;> simp [h]
  · by_cases h : e.ready = true <;> simp [h]
  · by_cases ht : e.last_reclaim_jiffies + kswapd_timeout ≤ now <;> simp [ht]

/-- Witness for C9: an unready engine: the first write readies it and all
three gated entry points are no-ops before that. -/
theorem ready_flag_write_once_witness :
    (simple_lmk_init_set ⟨false, false, 0, false, false, []⟩).ready = true ∧
    ((⟨false, false, 0, false, false, []⟩ : Engine).ready = true →
      simple_lmk_init_set ⟨false, false, 0, false, false, []⟩ =
        ⟨false, false, 0, false, false, []⟩) ∧
    ((⟨false, false, 0, false, false, []⟩ : Engine).ready = false →
      simple_lmk_force_reclaim 10 5 20 ⟨false, false, 0, false, false, []⟩ =
        (⟨false, false, 0, false, false, []⟩, 0) ∧
      simple_lmk_start_reclaim ⟨false, false, 0, false, false, []⟩ =
        ⟨false, false, 0, false, false, []⟩ ∧
      simple_lmk_stop_reclaim ⟨false, false, 0, false, false, []⟩ =
        ⟨false, false, 0, false, false, []⟩) ∧
    (simple_lmk_force_reclaim 10 5 20 ⟨false, false, 0, false, false, []⟩).1.ready =
      (⟨false, false, 0, false, false, []⟩ : Engine).ready ∧
    (simple_lmk_start_reclaim ⟨false, false, 0, false, false, []⟩).ready =
      (⟨false, false, 0, false, false, []⟩ : Engine).ready ∧
    (simple_lmk_stop_reclaim ⟨false, false, 0, false, false, []⟩).ready =
      (⟨false, false, 0, false, false, []⟩ : Engine).ready ∧
    (simple_lmk_reclaim_work 15 5 20 ⟨false, false, 0, false, false, []⟩).1.ready =
      (⟨false, false, 0, false, false, []⟩ : Engine).ready :=
  ready_flag_write_once 10 15 5 20 ⟨false, false, 0, false, false, []⟩

end SimpleLmk
